import Mathlib

/-!
Verification of the Twitch channel plugin (clawdbot).

Strings are embedded as `List Char` (one entry per UTF-16 code unit of the
JavaScript string; all inputs considered here stay in the BMP, where the two
notions coincide).  Each definition mirrors one function of the TypeScript
source; functions whose source file is absent from the repository snapshot are
modelled from the specification and say so in their doc comment.
-/

/-- JavaScript string truthiness for an optional string field:
`undefined` and `""` are falsy. -/
def strTruthy : Option String → Bool
  | some s => s ≠ ""
  | none => false

/-- JavaScript truthiness of an optional boolean field. -/
def boolTruthy : Option Bool → Bool
  | some b => b
  | none => false

/-- JavaScript truthiness of an optional numeric field (`0` is falsy). -/
def numTruthy : Option Int → Bool
  | some n => n ≠ 0
  | none => false

/-! ## Outbound text pipeline: `chunkTextForTwitch` (utils/markdown.ts)

The chunking loop of `chunkTextForTwitch`.  `lastIndexOfSpace` is
`String.prototype.lastIndexOf(" ")` on the window. -/

/-- Index of the last space character of a list, as in
`window.lastIndexOf(" ")` (but `none` instead of `-1`). -/
def lastIndexOfSpace : List Char → Option Nat
  | [] => none
  | c :: rest =>
    match lastIndexOfSpace rest with
    | some i => some (i + 1)
    | none => if c = ' ' then some 0 else none

/-- The `while (remaining.length > limit)` loop of `chunkTextForTwitch`
(plugin source, utils/markdown.ts): take the `limit`-sized window, split at
the last space inside it if any, otherwise hard-split at the limit; finally
push the non-empty remainder.  The loop only runs with a positive limit
(the caller returns early on `limit <= 0`), which also makes it terminate. -/
def chunkCore (limit : Nat) (hl : 0 < limit) (remaining : List Char) :
    List (List Char) :=
  if _h : limit < remaining.length then
    let window := remaining.take limit
    match lastIndexOfSpace window with
    | none => window :: chunkCore limit hl (remaining.drop limit)
    | some i => window.take i :: chunkCore limit hl (remaining.drop (i + 1))
  else if remaining.isEmpty then [] else [remaining]
termination_by remaining.length
decreasing_by
  · simp only [List.length_drop]; omega
  · simp only [List.length_drop]; omega

/-- Reinsert the designated split points between chunks: a split was a
hard split (no space removed) exactly when the chunk before it has length
`limit`; every soft split removed one space. -/
def rejoinChunks (limit : Nat) : List (List Char) → List Char
  | [] => []
  | [c] => c
  | c :: cs => c ++ (if c.length = limit then [] else [' ']) ++ rejoinChunks limit cs

theorem lastIndexOfSpace_lt_length {l : List Char} {i : Nat}
    (h : lastIndexOfSpace l = some i) : i < l.length := by
  induction l generalizing i with
  | nil => simp [lastIndexOfSpace] at h
  | cons c rest ih =>
    simp only [lastIndexOfSpace] at h
    cases hr : lastIndexOfSpace rest with
    | some j =>
      rw [hr] at h
      cases h
      simpa using Nat.succ_lt_succ (ih hr)
    | none =>
      rw [hr] at h
      by_cases hc : c = ' ' <;> simp [hc] at h
      subst h
      simp

theorem lastIndexOfSpace_getElem {l : List Char} {i : Nat}
    (h : lastIndexOfSpace l = some i) : l[i]? = some ' ' := by
  induction l generalizing i with
  | nil => simp [lastIndexOfSpace] at h
  | cons c rest ih =>
    simp only [lastIndexOfSpace] at h
    cases hr : lastIndexOfSpace rest with
    | some j =>
      rw [hr] at h
      cases h
      simpa using ih hr
    | none =>
      rw [hr] at h
      by_cases hc : c = ' ' <;> simp [hc] at h
      subst h
      simp [hc]

theorem lastIndexOfSpace_none {l : List Char}
    (h : lastIndexOfSpace l = none) : ' ' ∉ l := by
  induction l with
  | nil => simp
  | cons c rest ih =>
    simp only [lastIndexOfSpace] at h
    cases hr : lastIndexOfSpace rest with
    | some j => rw [hr] at h; cases h
    | none =>
      rw [hr] at h
      by_cases hc : c = ' '
      · simp [hc] at h
      · intro habs
        rcases List.mem_cons.mp habs with h1 | h2
        · exact hc h1.symm
        · exact ih hr h2

theorem chunkCore_eq_hard (limit : Nat) (hl : 0 < limit) (remaining : List Char)
    (h : limit < remaining.length)
    (hsp : lastIndexOfSpace (remaining.take limit) = none) :
    chunkCore limit hl remaining =
      remaining.take limit :: chunkCore limit hl (remaining.drop limit) := by
  rw [chunkCore]
  simp [h, hsp]

theorem chunkCore_eq_soft (limit : Nat) (hl : 0 < limit) (remaining : List Char)
    (h : limit < remaining.length) (i : Nat)
    (hsp : lastIndexOfSpace (remaining.take limit) = some i) :
    chunkCore limit hl remaining =
      (remaining.take limit).take i :: chunkCore limit hl (remaining.drop (i + 1)) := by
  rw [chunkCore]
  simp [h, hsp]

theorem chunkCore_eq_small (limit : Nat) (hl : 0 < limit) (remaining : List Char)
    (h : ¬ limit < remaining.length) :
    chunkCore limit hl remaining = if remaining.isEmpty then [] else [remaining] := by
  rw [chunkCore]
  simp [h]

theorem rejoinChunks_cons (limit : Nat) (c : List Char) (cs : List (List Char))
    (h : cs ≠ []) :
    rejoinChunks limit (c :: cs) =
      c ++ (if c.length = limit then [] else [' ']) ++ rejoinChunks limit cs := by
  cases cs with
  | nil => exact absurd rfl h
  | cons d ds => rfl

/-- Combined invariants of the chunking loop: chunk lengths are bounded by the
limit, reinserting the removed split spaces reconstructs the input, a
non-final limit-length (hard-split) chunk contains no space, and a non-empty
input yields at least one chunk. -/
theorem chunkCore_spec (limit : Nat) (hl : 0 < limit) (remaining : List Char) :
    (∀ c ∈ chunkCore limit hl remaining, c.length ≤ limit) ∧
    rejoinChunks limit (chunkCore limit hl remaining) = remaining ∧
    (∀ c ∈ (chunkCore limit hl remaining).dropLast, c.length = limit → ' ' ∉ c) ∧
    (remaining ≠ [] → chunkCore limit hl remaining ≠ []) := by
  induction remaining using chunkCore.induct limit hl with
  | case1 x h window hsp ih =>
    have hwdef : window = x.take limit := rfl
    rw [hwdef] at hsp
    obtain ⟨ih1, ih2, ih3, ih4⟩ := ih
    have hwl : (x.take limit).length = limit := by
      simp [List.length_take]; omega
    have hdne : x.drop limit ≠ [] := by
      intro habs
      have := congrArg List.length habs
      simp at this
      omega
    have hcne := ih4 hdne
    rw [chunkCore_eq_hard limit hl x h hsp]
    refine ⟨?_, ?_, ?_, ?_⟩
    · intro c hc
      rcases List.mem_cons.mp hc with hc | hc
      · subst hc; omega
      · exact ih1 c hc
    · rw [rejoinChunks_cons limit _ _ hcne, if_pos hwl, ih2]
      simp [List.take_append_drop]
    · intro c hc
      rw [List.dropLast_cons_of_ne_nil hcne] at hc
      rcases List.mem_cons.mp hc with hc | hc
      · subst hc
        intro _ habs
        exact lastIndexOfSpace_none hsp habs
      · exact ih3 c hc
    · intro _
      simp
  | case2 x h window i hsp ih =>
    have hwdef : window = x.take limit := rfl
    rw [hwdef] at hsp
    obtain ⟨ih1, ih2, ih3, ih4⟩ := ih
    have hwl : (x.take limit).length = limit := by
      simp [List.length_take]; omega
    have hi : i < limit := by
      have := lastIndexOfSpace_lt_length hsp
      omega
    have hchunk : (x.take limit).take i = x.take i := by
      rw [List.take_take]
      congr 1
      omega
    have hclen : (x.take i).length = i := by
      simp [List.length_take]; omega
    have hdne : x.drop (i + 1) ≠ [] := by
      intro habs
      have := congrArg List.length habs
      simp at this
      omega
    have hcne := ih4 hdne
    have hspace : x[i]? = some ' ' := by
      have := lastIndexOfSpace_getElem hsp
      rwa [List.getElem?_take_of_lt hi] at this
    rw [chunkCore_eq_soft limit hl x h i hsp, hchunk]
    refine ⟨?_, ?_, ?_, ?_⟩
    · intro c hc
      rcases List.mem_cons.mp hc with hc | hc
      · subst hc; omega
      · exact ih1 c hc
    · rw [rejoinChunks_cons limit _ _ hcne, if_neg (by omega), ih2]
      have hil : i < x.length := by omega
      have hdropi : x.drop i = ' ' :: x.drop (i + 1) := by
        rw [List.drop_eq_getElem_cons hil]
        congr 1
        have := List.getElem?_eq_getElem hil
        rw [this] at hspace
        exact Option.some.inj hspace
      calc x.take i ++ [' '] ++ x.drop (i + 1)
          = x.take i ++ (' ' :: x.drop (i + 1)) := by simp
        _ = x.take i ++ x.drop i := by rw [hdropi]
        _ = x := List.take_append_drop i x
    · intro c hc
      rw [List.dropLast_cons_of_ne_nil hcne] at hc
      rcases List.mem_cons.mp hc with hc | hc
      · subst hc
        intro hlen
        omega
      · exact ih3 c hc
    · intro _
      simp
  | case3 x h hempty =>
    have hx : x = [] := List.isEmpty_iff.mp hempty
    subst hx
    rw [chunkCore_eq_small limit hl [] h]
    simp [rejoinChunks]
  | case4 x h hempty =>
    rw [chunkCore_eq_small limit hl x h]
    rw [if_neg hempty]
    refine ⟨?_, ?_, ?_, ?_⟩
    · intro c hc
      rcases List.mem_cons.mp hc with hc | hc
      · subst hc; omega
      · simp at hc
    · rfl
    · intro c hc
      simp at hc
    · intro _
      simp

/-! ## Markdown stripping: `stripMarkdownForTwitch` (utils/markdown.ts)

Each global-regex `replace` of the source is embedded as a scanner over the
character list implementing the same leftmost-match semantics: on a failed
match attempt the scanner emits one character and retries from the next
position, exactly as the regex engine advances. -/

/-- The backtick character (code point 96). -/
def tick : Char := Char.ofNat 96

/-- JavaScript `\s` on the ASCII range (space, tab, newline, carriage return,
vertical tab, form feed). -/
def isJsWs (c : Char) : Bool :=
  c == ' ' || c == '\t' || c == '\n' || c == '\r' || c == '\x0b' || c == '\x0c'

/-- Whether the list starts with a `\s` character. -/
def headWs : List Char → Bool
  | c :: _ => isJsWs c
  | [] => false


theorem length_dropWhile_le (p : Char → Bool) (l : List Char) :
    (l.dropWhile p).length ≤ l.length :=
  List.Sublist.length_le (List.dropWhile_sublist _)

theorem length_tail_le (l : List Char) : l.tail.length ≤ l.length := by
  cases l <;> simp

/-- `text.replace(/!\[[^\]]*]\([^)]+\)/g, "")`: remove image syntax. -/
def stripImages : List Char → List Char
  | [] => []
  | c :: rest =>
    if c = '!' ∧ rest.head? = some '[' then
      let rest1 := rest.tail.dropWhile (fun x => x ≠ ']')
      if rest1.head? = some ']' ∧ rest1.tail.head? = some '(' then
        let rest2 := rest1.tail.tail
        let url := rest2.takeWhile (fun x => x ≠ ')')
        let rest3 := rest2.dropWhile (fun x => x ≠ ')')
        if url ≠ [] ∧ rest3.head? = some ')' then stripImages rest3.tail
        else c :: stripImages rest
      else c :: stripImages rest
    else c :: stripImages rest
termination_by l => l.length
decreasing_by
  · have h1 : ((rest.tail.dropWhile (fun x => x ≠ ']')).tail.tail.dropWhile
        (fun x => x ≠ ')')).tail.length ≤ rest.length := by
      apply le_trans (length_tail_le _)
      apply le_trans (length_dropWhile_le _ _)
      apply le_trans (length_tail_le _)
      apply le_trans (length_tail_le _)
      apply le_trans (length_dropWhile_le _ _)
      exact length_tail_le _
    simp only [List.length_cons]
    omega
  all_goals simp only [List.length_cons]; omega

/-- `text.replace(/\[([^\]]+)]\([^)]+\)/g, "$1")`: unwrap link syntax to its
label text. -/
def stripLinks : List Char → List Char
  | [] => []
  | c :: rest =>
    if c = '[' then
      let label := rest.takeWhile (fun x => x ≠ ']')
      let rest1 := rest.dropWhile (fun x => x ≠ ']')
      if label ≠ [] ∧ rest1.head? = some ']' ∧ rest1.tail.head? = some '(' then
        let rest2 := rest1.tail.tail
        let url := rest2.takeWhile (fun x => x ≠ ')')
        let rest3 := rest2.dropWhile (fun x => x ≠ ')')
        if url ≠ [] ∧ rest3.head? = some ')' then label ++ stripLinks rest3.tail
        else c :: stripLinks rest
      else c :: stripLinks rest
    else c :: stripLinks rest
termination_by l => l.length
decreasing_by
  · have h1 : ((rest.dropWhile (fun x => x ≠ ']')).tail.tail.dropWhile
        (fun x => x ≠ ')')).tail.length ≤ rest.length := by
      apply le_trans (length_tail_le _)
      apply le_trans (length_dropWhile_le _ _)
      apply le_trans (length_tail_le _)
      apply le_trans (length_tail_le _)
      exact length_dropWhile_le _ _
    simp only [List.length_cons]
    omega
  all_goals simp only [List.length_cons]; omega

/-- `text.replace(/dd([^d]+)dd/g, "$1")` for a doubled delimiter character
`d` (bold `**`, bold `__`, strikethrough `~~`). -/
def stripPair2 (d : Char) : List Char → List Char
  | [] => []
  | [c] => [c]
  | c1 :: c2 :: rest =>
    if c1 = d ∧ c2 = d then
      let inner := rest.takeWhile (fun x => x ≠ d)
      let rest1 := rest.dropWhile (fun x => x ≠ d)
      if inner ≠ [] ∧ rest1.head? = some d ∧ rest1.tail.head? = some d then
        inner ++ stripPair2 d rest1.tail.tail
      else c1 :: stripPair2 d (c2 :: rest)
    else c1 :: stripPair2 d (c2 :: rest)
termination_by l => l.length
decreasing_by
  · have h1 : ((rest.dropWhile (fun x => x ≠ d)).tail.tail).length ≤ rest.length := by
      apply le_trans (length_tail_le _)
      apply le_trans (length_tail_le _)
      exact length_dropWhile_le _ _
    simp only [List.length_cons]
    omega
  all_goals simp only [List.length_cons]; omega

/-- `text.replace(/d([^d]+)d/g, "$1")` for a single delimiter character `d`
(italic `*`, italic `_`, inline code). -/
def stripPair1 (d : Char) : List Char → List Char
  | [] => []
  | c :: rest =>
    if c = d then
      let inner := rest.takeWhile (fun x => x ≠ d)
      let rest1 := rest.dropWhile (fun x => x ≠ d)
      if inner ≠ [] ∧ rest1.head? = some d then
        inner ++ stripPair1 d rest1.tail
      else c :: stripPair1 d rest
    else c :: stripPair1 d rest
termination_by l => l.length
decreasing_by
  · have h1 : ((rest.dropWhile (fun x => x ≠ d)).tail).length ≤ rest.length := by
      apply le_trans (length_tail_le _)
      exact length_dropWhile_le _ _
    simp only [List.length_cons]
    omega
  all_goals simp only [List.length_cons]; omega

/-- Whether the list starts with three backticks. -/
def startsTriple : List Char → Bool
  | a :: b :: c :: _ => a == tick && b == tick && c == tick
  | _ => false

/-- Split at the first occurrence of three backticks: leftmost (lazy) match of
the closing fence in `/```[\s\S]*?```/`. -/
def splitAtTriple : List Char → Option (List Char × List Char)
  | [] => none
  | c :: rest =>
    if startsTriple (c :: rest) then some ([], rest.tail.tail)
    else
      match splitAtTriple rest with
      | some (a, b) => some (c :: a, b)
      | none => none

theorem splitAtTriple_length_lt :
    ∀ (l a b : List Char), splitAtTriple l = some (a, b) → b.length < l.length := by
  intro l
  induction l with
  | nil => intro a b h; simp [splitAtTriple] at h
  | cons c rest ih =>
    intro a b h
    simp only [splitAtTriple] at h
    by_cases hs : startsTriple (c :: rest)
    · rw [if_pos hs] at h
      obtain ⟨rfl, rfl⟩ := Prod.mk.injEq _ _ _ _ ▸ Option.some.inj h
      have := length_tail_le rest.tail
      have := length_tail_le rest
      simp only [List.length_cons]
      omega
    · rw [if_neg hs] at h
      cases hr : splitAtTriple rest with
      | none => rw [hr] at h; cases h
      | some ab =>
        obtain ⟨a', b'⟩ := ab
        rw [hr] at h
        obtain ⟨rfl, rfl⟩ := Prod.mk.injEq _ _ _ _ ▸ Option.some.inj h
        have := ih a' b' hr
        simp only [List.length_cons]
        omega

/-- Inner cleanup pass 1 of the code-block replacer:
`block.replace(/```[^\n]*\n?/g, "")`. -/
def stripFenceLines : List Char → List Char
  | [] => []
  | c :: rest =>
    if startsTriple (c :: rest) then
      let rest1 := rest.tail.tail.dropWhile (fun x => x ≠ '\n')
      if rest1.head? = some '\n' then stripFenceLines rest1.tail
      else stripFenceLines rest1
    else c :: stripFenceLines rest
termination_by l => l.length
decreasing_by
  · have h1 : ((rest.tail.tail.dropWhile (fun x => x ≠ '\n')).tail).length ≤ rest.length := by
      apply le_trans (length_tail_le _)
      apply le_trans (length_dropWhile_le _ _)
      apply le_trans (length_tail_le _)
      exact length_tail_le _
    simp only [List.length_cons]
    omega
  · have h1 : (rest.tail.tail.dropWhile (fun x => x ≠ '\n')).length ≤ rest.length := by
      apply le_trans (length_dropWhile_le _ _)
      apply le_trans (length_tail_le _)
      exact length_tail_le _
    simp only [List.length_cons]
    omega
  all_goals simp only [List.length_cons]; omega

/-- Inner cleanup pass 2 of the code-block replacer:
`.replace(/```/g, "")`. -/
def stripTriples : List Char → List Char
  | [] => []
  | c :: rest =>
    if startsTriple (c :: rest) then stripTriples rest.tail.tail
    else c :: stripTriples rest
termination_by l => l.length
decreasing_by
  · have h1 : rest.tail.tail.length ≤ rest.length := by
      apply le_trans (length_tail_le _)
      exact length_tail_le _
    simp only [List.length_cons]
    omega
  all_goals simp only [List.length_cons]; omega

/-- `text.replace(/```[\s\S]*?```/g, block => block.replace(/```[^\n]*\n?/g,
"").replace(/```/g, ""))`: fenced code blocks become their body text. -/
def stripCodeBlocks : List Char → List Char
  | [] => []
  | c :: rest =>
    if startsTriple (c :: rest) then
      match hm : splitAtTriple rest.tail.tail with
      | some (inner, after) =>
        stripTriples (stripFenceLines
          (tick :: tick :: tick :: (inner ++ [tick, tick, tick]))) ++
          stripCodeBlocks after
      | none => c :: stripCodeBlocks rest
    else c :: stripCodeBlocks rest
termination_by l => l.length
decreasing_by
  · have h1 := splitAtTriple_length_lt _ _ _ hm
    have h2 : rest.tail.tail.length ≤ rest.length := by
      apply le_trans (length_tail_le _)
      exact length_tail_le _
    simp only [List.length_cons]
    omega
  all_goals simp only [List.length_cons]; omega

/-- `text.replace(/^#{1,6}\s+/gm, "")`: strip heading markers at line starts.
The boolean argument tracks whether the scanner sits at a line start (string
start, or just after a newline — including the newline that ended a removed
whitespace run, as the regex engine's `^` does with `m`). -/
def stripHeadings : Bool → List Char → List Char
  | _, [] => []
  | false, c :: rest => c :: stripHeadings (c == '\n') rest
  | true, l =>
    let hashes := l.takeWhile (fun x => x = '#')
    let rest := l.dropWhile (fun x => x = '#')
    if 1 ≤ hashes.length ∧ hashes.length ≤ 6 ∧ headWs rest then
      let ws := rest.takeWhile isJsWs
      let rest2 := rest.dropWhile isJsWs
      stripHeadings (ws.getLast? == some '\n') rest2
    else
      match l with
      | c :: r => c :: stripHeadings (c == '\n') r
      | [] => []
termination_by _ l => l.length
decreasing_by
  · simp only [List.length_cons]; omega
  · rename_i hcond
    have hh : hashes = l.takeWhile (fun x => x = '#') := rfl
    rw [hh] at hcond
    have h1 : (l.dropWhile (fun x => decide (x = '#'))).length +
        (l.takeWhile (fun x => decide (x = '#'))).length = l.length := by
      rw [Nat.add_comm]
      rw [← List.length_append]
      rw [List.takeWhile_append_dropWhile]
    have h2 : ((l.dropWhile (fun x => decide (x = '#'))).dropWhile isJsWs).length ≤
        (l.dropWhile (fun x => decide (x = '#'))).length := length_dropWhile_le _ _
    have h3 := hcond.1
    omega
  · simp only [List.length_cons]; omega

/-- `text.replace(/^\s*[-*+]\s+/gm, "")`: strip unordered-list markers. -/
def stripBullets : Bool → List Char → List Char
  | _, [] => []
  | false, c :: rest => c :: stripBullets (c == '\n') rest
  | true, l =>
    let rest := l.dropWhile isJsWs
    if (rest.head? = some '-' ∨ rest.head? = some '*' ∨ rest.head? = some '+') ∧
        headWs rest.tail then
      let ws2 := rest.tail.takeWhile isJsWs
      let rest3 := rest.tail.dropWhile isJsWs
      stripBullets (ws2.getLast? == some '\n') rest3
    else
      match l with
      | c :: r => c :: stripBullets (c == '\n') r
      | [] => []
termination_by _ l => l.length
decreasing_by
  · simp only [List.length_cons]; omega
  · rename_i hcond
    have hr : rest = l.dropWhile isJsWs := rfl
    rw [hr] at hcond
    have h1 : (l.dropWhile isJsWs).length ≤ l.length := length_dropWhile_le _ _
    have h2 : ((l.dropWhile isJsWs).tail.dropWhile isJsWs).length ≤
        (l.dropWhile isJsWs).tail.length := length_dropWhile_le _ _
    have hne : l.dropWhile isJsWs ≠ [] := by
      intro habs
      rw [habs] at hcond
      rcases hcond.1 with h | h | h <;> simp at h
    have h3 : (l.dropWhile isJsWs).tail.length + 1 = (l.dropWhile isJsWs).length := by
      rcases hd : l.dropWhile isJsWs with _ | ⟨a, as⟩
      · exact absurd hd hne
      · simp
    omega
  · simp only [List.length_cons]; omega

/-- `text.replace(/^\s*\d+\.\s+/gm, "")`: strip ordered-list markers. -/
def stripNumbered : Bool → List Char → List Char
  | _, [] => []
  | false, c :: rest => c :: stripNumbered (c == '\n') rest
  | true, l =>
    let rest := l.dropWhile isJsWs
    let digits := rest.takeWhile Char.isDigit
    let rest2 := rest.dropWhile Char.isDigit
    if digits ≠ [] ∧ rest2.head? = some '.' ∧ headWs rest2.tail then
      let ws2 := rest2.tail.takeWhile isJsWs
      let rest4 := rest2.tail.dropWhile isJsWs
      stripNumbered (ws2.getLast? == some '\n') rest4
    else
      match l with
      | c :: r => c :: stripNumbered (c == '\n') r
      | [] => []
termination_by _ l => l.length
decreasing_by
  · simp only [List.length_cons]; omega
  · rename_i hcond
    have hdg : digits = (l.dropWhile isJsWs).takeWhile Char.isDigit := rfl
    rw [hdg] at hcond
    have h1 : (l.dropWhile isJsWs).length ≤ l.length := length_dropWhile_le _ _
    have h2 : ((l.dropWhile isJsWs).dropWhile Char.isDigit).length +
        ((l.dropWhile isJsWs).takeWhile Char.isDigit).length =
        (l.dropWhile isJsWs).length := by
      rw [Nat.add_comm, ← List.length_append, List.takeWhile_append_dropWhile]
    have h3 : 0 < ((l.dropWhile isJsWs).takeWhile Char.isDigit).length :=
      List.length_pos.mpr hcond.1
    have h4 : (((l.dropWhile isJsWs).dropWhile Char.isDigit).tail.dropWhile isJsWs).length ≤
        ((l.dropWhile isJsWs).dropWhile Char.isDigit).tail.length := length_dropWhile_le _ _
    have h5 : ((l.dropWhile isJsWs).dropWhile Char.isDigit).tail.length ≤
        ((l.dropWhile isJsWs).dropWhile Char.isDigit).length := length_tail_le _
    omega
  · simp only [List.length_cons]; omega

/-- Space or tab (the `[ \t]` character class). -/
def isSpaceTab (c : Char) : Bool := c == ' ' || c == '\t'

/-- `text.replace(/\r/g, "")`: remove carriage returns. -/
def removeCarriageReturns (l : List Char) : List Char := l.filter (fun x => x ≠ '\r')

/-- `text.replace(/[ \t]+\n/g, "\n")`: remove trailing spaces before newlines. -/
def stripTrailingWsNl : List Char → List Char
  | [] => []
  | c :: rest =>
    if isSpaceTab c then
      let run := (c :: rest).takeWhile isSpaceTab
      let rest1 := (c :: rest).dropWhile isSpaceTab
      if rest1.head? = some '\n' then '\n' :: stripTrailingWsNl rest1.tail
      else run ++ stripTrailingWsNl rest1
    else c :: stripTrailingWsNl rest
termination_by l => l.length
decreasing_by
  · rename_i hc hx
    have h1 : ((c :: rest).dropWhile isSpaceTab).tail.length ≤ rest.length := by
      apply le_trans (length_tail_le _)
      have : (c :: rest).dropWhile isSpaceTab = rest.dropWhile isSpaceTab := by
        rw [List.dropWhile_cons_of_pos]
        exact hc
      rw [this]
      exact length_dropWhile_le _ _
    simp only [List.length_cons]
    omega
  · rename_i hc hx
    have h1 : ((c :: rest).dropWhile isSpaceTab).length ≤ rest.length := by
      have : (c :: rest).dropWhile isSpaceTab = rest.dropWhile isSpaceTab := by
        rw [List.dropWhile_cons_of_pos]
        exact hc
      rw [this]
      exact length_dropWhile_le _ _
    simp only [List.length_cons]
    omega
  · simp only [List.length_cons]; omega

/-- `text.replace(/\n/g, " ")`: newlines become spaces. -/
def newlinesToSpaces (l : List Char) : List Char :=
  l.map (fun c => if c = '\n' then ' ' else c)

/-- `text.replace(/[ \t]{2,}/g, " ")`: collapse runs of two or more
spaces/tabs to a single space (a lone tab stays). -/
def collapseSpaceRuns : List Char → List Char
  | [] => []
  | c :: rest =>
    if isSpaceTab c then
      let run := (c :: rest).takeWhile isSpaceTab
      let rest1 := (c :: rest).dropWhile isSpaceTab
      if 2 ≤ run.length then ' ' :: collapseSpaceRuns rest1
      else c :: collapseSpaceRuns rest
    else c :: collapseSpaceRuns rest
termination_by l => l.length
decreasing_by
  · rename_i hc
    have h1 : ((c :: rest).dropWhile isSpaceTab).length ≤ rest.length := by
      have : (c :: rest).dropWhile isSpaceTab = rest.dropWhile isSpaceTab := by
        rw [List.dropWhile_cons_of_pos]
        exact hc
      rw [this]
      exact length_dropWhile_le _ _
    simp only [List.length_cons]
    omega
  · simp only [List.length_cons]; omega
  · simp only [List.length_cons]; omega

/-- `text.trim()`: strip whitespace from both ends. -/
def trimJs (l : List Char) : List Char :=
  ((l.dropWhile isJsWs).reverse.dropWhile isJsWs).reverse

/-- `stripMarkdownForTwitch` (utils/markdown.ts): the full sequence of
replacements performed by the source, in source order. -/
def stripMarkdownForTwitch (markdown : List Char) : List Char :=
  let t1 := stripImages markdown
  let t2 := stripLinks t1
  let t3 := stripPair2 '*' t2
  let t4 := stripPair2 '_' t3
  let t5 := stripPair1 '*' t4
  let t6 := stripPair1 '_' t5
  let t7 := stripPair2 '~' t6
  let t8 := stripCodeBlocks t7
  let t9 := stripPair1 tick t8
  let t10 := stripHeadings true t9
  let t11 := stripBullets true t10
  let t12 := stripNumbered true t11
  let t13 := removeCarriageReturns t12
  let t14 := stripTrailingWsNl t13
  let t15 := newlinesToSpaces t14
  let t16 := collapseSpaceRuns t15
  trimJs t16

/-- `chunkTextForTwitch` (utils/markdown.ts): strip markdown, then return the
cleaned text whole when it is empty, the limit non-positive, or short enough;
otherwise run the word-boundary chunking loop. -/
def chunkTextForTwitch (text : List Char) (limit : Nat) : List (List Char) :=
  let cleaned := stripMarkdownForTwitch text
  if cleaned.isEmpty then []
  else if h : limit = 0 then [cleaned]
  else if cleaned.length ≤ limit then [cleaned]
  else chunkCore limit (Nat.pos_of_ne_zero h) cleaned

/-- C1: for every input text and every limit > 0, `chunkTextForTwitch`
satisfies: every returned chunk has length ≤ limit; concatenating all
returned chunks, reinserting the space characters that were the designated
split points (one space after every non-final chunk shorter than the limit;
hard splits removed none), reconstructs the markdown-stripped text; and a
chunk is hard-split without a word boundary (a non-final chunk of exactly
the limit's length, i.e. the undivided window) only when that window
contains no space. -/
theorem chunkTextForTwitch_invariants (text : List Char) (limit : Nat)
    (hl : 0 < limit) :
    (∀ c ∈ chunkTextForTwitch text limit, c.length ≤ limit) ∧
    rejoinChunks limit (chunkTextForTwitch text limit) =
      stripMarkdownForTwitch text ∧
    (∀ c ∈ (chunkTextForTwitch text limit).dropLast, c.length = limit → ' ' ∉ c) := by
  simp only [chunkTextForTwitch]
  by_cases h1 : (stripMarkdownForTwitch text).isEmpty
  · have hnil : stripMarkdownForTwitch text = [] := List.isEmpty_iff.mp h1
    simp [h1, hnil, rejoinChunks]
  · have hlz : ¬ limit = 0 := by omega
    simp only [h1, Bool.false_eq_true, if_false, dif_neg hlz]
    by_cases h2 : (stripMarkdownForTwitch text).length ≤ limit
    · simp only [if_pos h2]
      refine ⟨?_, rfl, ?_⟩
      · intro c hc
        rcases List.mem_cons.mp hc with hc | hc
        · subst hc; exact h2
        · simp at hc
      · intro c hc
        simp at hc
    · simp only [if_neg h2]
      obtain ⟨s1, s2, s3, _⟩ :=
        chunkCore_spec limit (Nat.pos_of_ne_zero hlz) (stripMarkdownForTwitch text)
      exact ⟨s1, s2, s3⟩

/-- Witness for C1 at the spec's example input `"aaaa bbbb cccc dddd"` with
limit 9. -/
theorem chunkTextForTwitch_invariants_witness :
    0 < 9 ∧
    ((∀ c ∈ chunkTextForTwitch ("aaaa bbbb cccc dddd".data) 9, c.length ≤ 9) ∧
     rejoinChunks 9 (chunkTextForTwitch ("aaaa bbbb cccc dddd".data) 9) =
       stripMarkdownForTwitch ("aaaa bbbb cccc dddd".data) ∧
     (∀ c ∈ (chunkTextForTwitch ("aaaa bbbb cccc dddd".data) 9).dropLast,
        c.length = 9 → ' ' ∉ c)) :=
  ⟨by decide, chunkTextForTwitch_invariants ("aaaa bbbb cccc dddd".data) 9 (by decide)⟩

/-! ## Token normalization

The `oauth:` prefix stripping that appears inline in `getClient`
(twitch-client.ts, `normalizeToken` of utils/twitch.ts) and in
`resolveTwitchTargets` (resolver.ts):
`token.startsWith("oauth:") ? token.slice(6) : token`. -/

/-- The removable token prefix marker `"oauth:"`. -/
def oauthMarker : List Char := ['o', 'a', 'u', 't', 'h', ':']

/-- `normalizeToken`: strip a leading `oauth:` once, otherwise return the
token unchanged (twitch-client.ts line 123 / resolver.ts lines 64-66). -/
def normalizeToken (t : List Char) : List Char :=
  if oauthMarker.isPrefixOf t then t.drop 6 else t

/-- C2 counterexample: normalization is not idempotent.  On the token
`"oauth:oauth:x"` one pass yields `"oauth:x"`, and normalizing that
already-normalized token strips a second prefix occurrence instead of
returning it unchanged. -/
theorem normalizeToken_not_idempotent :
    normalizeToken (normalizeToken ("oauth:oauth:x".data)) ≠
      normalizeToken ("oauth:oauth:x".data) := by
  decide

/-- C2 (amended): for every token carrying the `oauth:` prefix, normalization
strips exactly one occurrence of the prefix (prepending the prefix to the
result recovers the token), regardless of repeats of the prefix substring
elsewhere in the token; and normalizing an already-normalized token returns
it unchanged provided that token does not itself still begin with the
prefix. -/
theorem normalizeToken_strips_once (t : List Char) :
    (oauthMarker.isPrefixOf t → oauthMarker ++ normalizeToken t = t) ∧
    (¬ oauthMarker.isPrefixOf (normalizeToken t) →
      normalizeToken (normalizeToken t) = normalizeToken t) := by
  constructor
  · intro hp
    have hpre : oauthMarker <+: t := by
      exact List.isPrefixOf_iff_prefix.mp hp
    obtain ⟨rest, hrest⟩ := hpre
    subst hrest
    rw [normalizeToken, if_pos hp]
    simp [oauthMarker]
  · intro hp
    rw [normalizeToken, if_neg hp]

/-- Witness for C2 (amended) at the token `"oauth:abc"`. -/
theorem normalizeToken_strips_once_witness :
    oauthMarker ++ normalizeToken ("oauth:abc".data) = "oauth:abc".data ∧
    normalizeToken (normalizeToken ("oauth:abc".data)) =
      normalizeToken ("oauth:abc".data) :=
  ⟨(normalizeToken_strips_once ("oauth:abc".data)).1 (by decide),
   (normalizeToken_strips_once ("oauth:abc".data)).2 (by decide)⟩

/-! ## Configuration model (config.ts / token resolution)

The configuration tree `cfg.channels.twitch` with its base-level fields,
and the per-account entries under `accounts`.  A field is `none` when the
JavaScript value is absent or fails the source's `typeof` check. -/

/-- One raw account entry (`channels.twitch.accounts.<id>`), all fields
optional as at runtime. -/
structure RawAccountCfg where
  username : Option String := none
  token : Option String := none
  accessToken : Option String := none
  clientId : Option String := none
  channel : Option String := none
  enabled : Option Bool := none
  allowFrom : Option (List String) := none
  allowedRoles : Option (List String) := none
  requireMention : Option Bool := none
  clientSecret : Option String := none
  refreshToken : Option String := none
  expiresIn : Option Int := none
  obtainmentTimestamp : Option Int := none
deriving DecidableEq

/-- The `channels.twitch` section: base-level account fields plus the
`accounts` map (modelled as an association list). -/
structure TwitchSection where
  username : Option String := none
  accessToken : Option String := none
  clientId : Option String := none
  channel : Option String := none
  enabled : Option Bool := none
  allowFrom : Option (List String) := none
  allowedRoles : Option (List String) := none
  requireMention : Option Bool := none
  clientSecret : Option String := none
  refreshToken : Option String := none
  expiresIn : Option Int := none
  obtainmentTimestamp : Option Int := none
  accounts : Option (List (String × RawAccountCfg)) := none
deriving DecidableEq

/-- The `channels` object. -/
structure ChannelsCfg where
  twitch : Option TwitchSection := none
deriving DecidableEq

/-- The core configuration object. -/
structure CoreCfg where
  channels : Option ChannelsCfg := none
deriving DecidableEq

/-- `DEFAULT_ACCOUNT_ID` (config.ts). -/
def DEFAULT_ACCOUNT_ID : String := "default"

/-- `cfg?.channels?.twitch`. -/
def cfgTwitch (cfg : Option CoreCfg) : Option TwitchSection :=
  cfg.bind (fun c => c.channels.bind (·.twitch))

/-- `getAccountConfig` (config.ts, lines 174-236 of the resolver/config
source).  For the default account the base-level fields are spread *after*
the `accounts.default` entry (`{ ...accountFromAccounts, ...baseLevel }`),
so every base-level key — present or `undefined` — overwrites the
per-account value; only `token`, which has no base-level counterpart,
survives from the per-account entry.  The merged object is used only when
its `username` is truthy, otherwise the raw `accounts.default` entry (or
`null`) is returned.  Non-default accounts read only the `accounts` map. -/
def getAccountConfig (coreConfig : Option CoreCfg) (accountId : String) :
    Option RawAccountCfg :=
  match coreConfig with
  | none => none
  | some cfg =>
    let twitch := cfg.channels.bind (·.twitch)
    let accounts := twitch.bind (·.accounts)
    if accountId = DEFAULT_ACCOUNT_ID then
      let accountFromAccounts := accounts.bind (·.lookup DEFAULT_ACCOUNT_ID)
      let merged : RawAccountCfg :=
        { username := twitch.bind (·.username)
          accessToken := twitch.bind (·.accessToken)
          clientId := twitch.bind (·.clientId)
          channel := twitch.bind (·.channel)
          enabled := twitch.bind (·.enabled)
          allowFrom := twitch.bind (·.allowFrom)
          allowedRoles := twitch.bind (·.allowedRoles)
          requireMention := twitch.bind (·.requireMention)
          clientSecret := twitch.bind (·.clientSecret)
          refreshToken := twitch.bind (·.refreshToken)
          expiresIn := twitch.bind (·.expiresIn)
          obtainmentTimestamp := twitch.bind (·.obtainmentTimestamp)
          token := accountFromAccounts.bind (·.token) }
      if strTruthy merged.username then some merged
      else
        match accountFromAccounts with
        | some a => some a
        | none => none
    else
      accounts.bind (·.lookup accountId)

/-- Where a resolved token came from. -/
inductive TokenSource where
  | config
  | env
  | none
deriving DecidableEq

/-- `TokenResolution`: `{ token: string|null, source: "config"|"env"|"none" }`. -/
structure TokenResolution where
  token : Option String
  source : TokenSource
deriving DecidableEq

/-- A string option that is `none` unless present and non-empty (JS truthy). -/
def truthyOrNone (o : Option String) : Option String :=
  match o with
  | some s => if s = "" then none else some s
  | none => none

/-- The explicit per-account token tier: `accounts.<id>.token` falling back
to `accounts.<id>.accessToken`. -/
def cfgAccountToken (cfg : Option CoreCfg) (aid : String) : Option String :=
  (((cfgTwitch cfg).bind (·.accounts)).bind (·.lookup aid)).bind
    (fun a =>
      match truthyOrNone a.token with
      | some t => some t
      | Option.none => truthyOrNone a.accessToken)

/-- The shared/base-level token tier: `channels.twitch.accessToken`. -/
def cfgBaseToken (cfg : Option CoreCfg) : Option String :=
  truthyOrNone ((cfgTwitch cfg).bind (·.accessToken))

/-- Modelled from the spec: `token.ts` (`resolveTwitchToken`) is not part of
the repository snapshot (only its callers in twitch-client.ts are).  Spec
§4.1: explicit per-account config value > shared/base-level config value >
environment-variable fallback (`CLAWDBOT_TWITCH_ACCESS_TOKEN`), where the
environment fallback applies only to the designated default account
identifier; if no tier yields a token, resolution is `token: null`,
`source: "none"`.  The `oauth:` prefix normalization is applied by the
caller (`normalizeToken` in `getClient`), as the client source shows. -/
def resolveTwitchToken (cfg : Option CoreCfg) (accountId : Option String)
    (envToken : Option String) : TokenResolution :=
  let aid := accountId.getD DEFAULT_ACCOUNT_ID
  match cfgAccountToken cfg aid with
  | some t => ⟨some t, TokenSource.config⟩
  | Option.none =>
    match cfgBaseToken cfg with
    | some t => ⟨some t, TokenSource.config⟩
    | Option.none =>
      if aid = DEFAULT_ACCOUNT_ID then
        match truthyOrNone envToken with
        | some t => ⟨some t, TokenSource.env⟩
        | Option.none => ⟨Option.none, TokenSource.none⟩
      else ⟨Option.none, TokenSource.none⟩

/-- Concrete per-account entry for the C4 counterexample: explicit
`clientId` (and tokens) under `accounts.default`. -/
def c4AcctEx : RawAccountCfg :=
  { username := some "accbot", token := some "accTok",
    accessToken := some "accAccess", clientId := some "accCid" }

/-- Concrete `channels.twitch` section for the C4 counterexample: base-level
`username` and `clientId` alongside the explicit `accounts.default` entry. -/
def c4SectionEx : TwitchSection :=
  { username := some "basebot", clientId := some "baseCid",
    accounts := some [(DEFAULT_ACCOUNT_ID, c4AcctEx)] }

/-- The full core config for the C4 counterexample. -/
def c4CfgEx : Option CoreCfg := some ⟨some ⟨some c4SectionEx⟩⟩

/-- C4 counterexample: resolving the default account's credentials does NOT
give an explicit per-account config value precedence over the base-level
value.  With `accounts.default.clientId = "accCid"` and base-level
`clientId = "baseCid"`, `getAccountConfig` returns the base-level value. -/
theorem getAccountConfig_base_overrides_account :
    (((cfgTwitch c4CfgEx).bind (·.accounts)).bind
        (·.lookup DEFAULT_ACCOUNT_ID)).bind (·.clientId) = some "accCid" ∧
    (getAccountConfig c4CfgEx DEFAULT_ACCOUNT_ID).bind (·.clientId) =
      some "baseCid" ∧
    (getAccountConfig c4CfgEx DEFAULT_ACCOUNT_ID).bind (·.clientId) ≠
      some "accCid" := by
  decide

/-- C4 (amended): for the default account, when a base-level `username` is
present the base-level layer takes precedence over (in fact replaces) the
per-account values for every credential field except `token`, which is taken
from the per-account entry; in token resolution a config-tier token always
wins over the environment fallback, and non-default accounts never consult
the environment variable (their resolution is independent of it and never
reports the `env` source). -/
theorem twitchCredentialPrecedence :
    (∀ (cc : CoreCfg),
      strTruthy ((cfgTwitch (some cc)).bind (·.username)) = true →
      (getAccountConfig (some cc) DEFAULT_ACCOUNT_ID).bind (·.clientId) =
          (cfgTwitch (some cc)).bind (·.clientId) ∧
      (getAccountConfig (some cc) DEFAULT_ACCOUNT_ID).bind (·.accessToken) =
          (cfgTwitch (some cc)).bind (·.accessToken) ∧
      (getAccountConfig (some cc) DEFAULT_ACCOUNT_ID).bind (·.token) =
          (((cfgTwitch (some cc)).bind (·.accounts)).bind
            (·.lookup DEFAULT_ACCOUNT_ID)).bind (·.token)) ∧
    (∀ (cfg : Option CoreCfg) (aid : String) (env env' : Option String),
      aid ≠ DEFAULT_ACCOUNT_ID →
      resolveTwitchToken cfg (some aid) env =
          resolveTwitchToken cfg (some aid) env' ∧
      (resolveTwitchToken cfg (some aid) env).source ≠ TokenSource.env) ∧
    (∀ (cfg : Option CoreCfg) (aid : String) (env : Option String) (t : String),
      cfgAccountToken cfg aid = some t →
      resolveTwitchToken cfg (some aid) env = ⟨some t, TokenSource.config⟩) ∧
    (∀ (cfg : Option CoreCfg) (aid : String) (env : Option String) (t : String),
      cfgAccountToken cfg aid = Option.none → cfgBaseToken cfg = some t →
      resolveTwitchToken cfg (some aid) env = ⟨some t, TokenSource.config⟩) := by
  refine ⟨?_, ?_, ?_, ?_⟩
  · intro cc h
    simp only [cfgTwitch, Option.some_bind] at h
    simp [getAccountConfig, cfgTwitch, h]
  · intro cfg aid env env' haid
    constructor
    · simp only [resolveTwitchToken, Option.getD_some]
      cases cfgAccountToken cfg aid with
      | some t => rfl
      | none =>
        cases cfgBaseToken cfg with
        | some t => rfl
        | none => rw [if_neg haid, if_neg haid]
    · simp only [resolveTwitchToken, Option.getD_some]
      cases cfgAccountToken cfg aid with
      | some t => simp
      | none =>
        cases cfgBaseToken cfg with
        | some t => simp
        | none =>
          rw [if_neg haid]
          simp
  · intro cfg aid env t hacc
    simp only [resolveTwitchToken, Option.getD_some, hacc]
  · intro cfg aid env t hacc hbase
    simp only [resolveTwitchToken, Option.getD_some, hacc, hbase]

/-- Witness for C4 (amended) at concrete configurations. -/
theorem twitchCredentialPrecedence_witness :
    ((getAccountConfig c4CfgEx DEFAULT_ACCOUNT_ID).bind (·.clientId) =
        (cfgTwitch c4CfgEx).bind (·.clientId) ∧
      (getAccountConfig c4CfgEx DEFAULT_ACCOUNT_ID).bind (·.accessToken) =
        (cfgTwitch c4CfgEx).bind (·.accessToken) ∧
      (getAccountConfig c4CfgEx DEFAULT_ACCOUNT_ID).bind (·.token) =
        (((cfgTwitch c4CfgEx).bind (·.accounts)).bind
          (·.lookup DEFAULT_ACCOUNT_ID)).bind (·.token)) ∧
    (resolveTwitchToken c4CfgEx (some "second") (some "envTok") =
        resolveTwitchToken c4CfgEx (some "second") Option.none ∧
      (resolveTwitchToken c4CfgEx (some "second") (some "envTok")).source ≠
        TokenSource.env) ∧
    resolveTwitchToken c4CfgEx (some DEFAULT_ACCOUNT_ID) (some "envTok") =
      ⟨some "accTok", TokenSource.config⟩ := by
  refine ⟨?_, ?_, ?_⟩
  · exact twitchCredentialPrecedence.1 ⟨some ⟨some c4SectionEx⟩⟩ (by decide)
  · exact twitchCredentialPrecedence.2.1 c4CfgEx "second" (some "envTok")
      Option.none (by decide)
  · exact twitchCredentialPrecedence.2.2.1 c4CfgEx DEFAULT_ACCOUNT_ID
      (some "envTok") "accTok" (by decide)

/-! ## Connection manager (`TwitchClientManager`, twitch-client.ts)

The manager's mutable registries (`clients`, `messageHandlers`) and its
interactions with the chat transport are modelled as an explicit state.
Transport client instances are identified by the `Nat` drawn from `nextId`
at creation time; `connects` and `quits` log each invocation of the
transport's `connect`/`quit` primitive by connection key. -/

/-- The runtime account object (`TwitchAccountConfig` of types.ts) as the
client manager, monitor and access control receive it. -/
structure TwitchAccountConfig where
  username : String
  token : Option String := none
  clientId : Option String := none
  channel : Option String := none
  enabled : Option Bool := none
  allowFrom : Option (List String) := none
  allowedRoles : Option (List String) := none
  requireMention : Option Bool := none
  clientSecret : Option String := none
  refreshToken : Option String := none
deriving DecidableEq

/-- `getAccountKey` (twitch-client.ts lines 300-302):
`username + ":" + (channel ?? username)`. -/
def getAccountKey (account : TwitchAccountConfig) : String :=
  account.username ++ ":" ++ (account.channel.getD account.username)

/-- The `TwitchClientManager` instance state: the `clients` and
`messageHandlers` maps plus instrumentation of the transport calls. -/
structure MgrState where
  clients : String → Option Nat
  handlers : String → Option Nat
  nextId : Nat
  connects : List String
  quits : List String

/-- The manager state with empty registries (a fresh
`new TwitchClientManager(...)`). -/
def MgrState.empty : MgrState :=
  ⟨fun _ => none, fun _ => none, 0, [], []⟩

/-- `getClient` (twitch-client.ts lines 89-175): return the existing client
for the account's key if present; otherwise resolve the token (throwing
`"Missing Twitch token"` when absent), check `account.clientId` (throwing
`"Missing Twitch client ID"` when falsy), create a client, connect, record
it under the key and return it.  Thrown `Error`s are modelled as
`Except.error` carrying the error message. -/
def getClient (st : MgrState) (account : TwitchAccountConfig)
    (cfg : Option CoreCfg) (accountId : Option String)
    (envToken : Option String) : Except String Nat × MgrState :=
  let key := getAccountKey account
  match st.clients key with
  | some c => (Except.ok c, st)
  | none =>
    let tr := resolveTwitchToken cfg accountId envToken
    if strTruthy tr.token = false then (Except.error "Missing Twitch token", st)
    else if strTruthy account.clientId = false then
      (Except.error "Missing Twitch client ID", st)
    else
      (Except.ok st.nextId,
        { clients := fun k => if k = key then some st.nextId else st.clients k
          handlers := st.handlers
          nextId := st.nextId + 1
          connects := st.connects ++ [key]
          quits := st.quits })

/-- `onMessage` (twitch-client.ts lines 233-239): installing a handler for
an account replaces any prior handler under the same key. -/
def onMessage (st : MgrState) (account : TwitchAccountConfig)
    (handlerId : Nat) : MgrState :=
  { st with
    handlers := fun k =>
      if k = getAccountKey account then some handlerId else st.handlers k }

/-- `disconnect` (twitch-client.ts lines 244-254): if a client exists for
the key, quit it and delete both the client and the message handler for
that key; otherwise do nothing. -/
def disconnect (st : MgrState) (account : TwitchAccountConfig) : MgrState :=
  let key := getAccountKey account
  match st.clients key with
  | some _ =>
    { clients := fun k => if k = key then none else st.clients k
      handlers := fun k => if k = key then none else st.handlers k
      nextId := st.nextId
      connects := st.connects
      quits := st.quits ++ [key] }
  | none => st

/-- A JavaScript thrown value: either an `Error` object (reported via
`.message`) or any other value (reported via `String(error)`). -/
inductive ThrownValue where
  | errObj (message : String)
  | nonError (stringRep : String)
deriving DecidableEq

/-- `error instanceof Error ? error.message : String(error)`. -/
def thrownToString : ThrownValue → String
  | .errObj m => m
  | .nonError s => s

/-- The structured result of `sendMessage`:
`{ ok: boolean; error?: string; messageId?: string }`. -/
structure SendResult where
  ok : Bool
  messageId : Option String
  error : Option String
deriving DecidableEq

/-- `sendMessage` (twitch-client.ts lines 269-295): obtain (or create) the
connection, generate a local message id, invoke `say`, and return
`{ ok: true, messageId }`; any throw — from `getClient` or from `say`
(`sayOutcome` is the transport's outcome: `none` on success, otherwise the
thrown value) — is caught and returned as `{ ok: false, error }` with
non-`Error` values coerced by `String(...)`.  `genId` stands for the locally
generated `Date.now()-random` identifier. -/
def sendMessage (st : MgrState) (account : TwitchAccountConfig)
    (cfg : Option CoreCfg) (accountId : Option String)
    (envToken : Option String) (genId : String)
    (sayOutcome : Option ThrownValue) : SendResult × MgrState :=
  match getClient st account cfg accountId envToken with
  | (Except.error e, st') => (⟨false, none, some e⟩, st')
  | (Except.ok _, st') =>
    match sayOutcome with
    | none => (⟨true, some genId, none⟩, st')
    | some v => (⟨false, none, some (thrownToString v)⟩, st')

/-- C3: for a configured account (token resolvable, client id present),
calling `getClient` twice sequentially with the same account returns the
same connection instance the second time (with no state change), and across
the two calls the transport's connect primitive runs at most once for that
account's key. -/
theorem getClient_sequential_reuse (st : MgrState)
    (account : TwitchAccountConfig) (cfg : Option CoreCfg)
    (accountId : Option String) (envToken : Option String)
    (htok : strTruthy (resolveTwitchToken cfg accountId envToken).token = true)
    (hcid : strTruthy account.clientId = true) :
    ∃ c, (getClient st account cfg accountId envToken).1 = Except.ok c ∧
      getClient (getClient st account cfg accountId envToken).2 account cfg
          accountId envToken =
        (Except.ok c, (getClient st account cfg accountId envToken).2) ∧
      ((getClient st account cfg accountId envToken).2).connects.count
          (getAccountKey account) ≤
        st.connects.count (getAccountKey account) + 1 := by
  cases hcl : st.clients (getAccountKey account) with
  | some c =>
    refine ⟨c, ?_, ?_, ?_⟩
    · simp [getClient, hcl]
    · simp [getClient, hcl]
    · simp [getClient, hcl]
  | none =>
    refine ⟨st.nextId, ?_, ?_, ?_⟩
    · simp [getClient, hcl, htok, hcid]
    · simp [getClient, hcl, htok, hcid]
    · simp [getClient, hcl, htok, hcid, List.count_append]

/-- Witness for C3: a fresh manager with the example configuration connects
once and then reuses the client. -/
theorem getClient_sequential_reuse_witness :
    strTruthy (resolveTwitchToken c4CfgEx (some DEFAULT_ACCOUNT_ID)
        none).token = true ∧
    strTruthy ({ username := "accbot", clientId := some "accCid" } :
        TwitchAccountConfig).clientId = true ∧
    ∃ c, (getClient MgrState.empty
        { username := "accbot", clientId := some "accCid" } c4CfgEx
        (some DEFAULT_ACCOUNT_ID) none).1 = Except.ok c ∧
      getClient (getClient MgrState.empty
          { username := "accbot", clientId := some "accCid" } c4CfgEx
          (some DEFAULT_ACCOUNT_ID) none).2
          { username := "accbot", clientId := some "accCid" } c4CfgEx
          (some DEFAULT_ACCOUNT_ID) none =
        (Except.ok c, (getClient MgrState.empty
          { username := "accbot", clientId := some "accCid" } c4CfgEx
          (some DEFAULT_ACCOUNT_ID) none).2) ∧
      ((getClient MgrState.empty
          { username := "accbot", clientId := some "accCid" } c4CfgEx
          (some DEFAULT_ACCOUNT_ID) none).2).connects.count
          (getAccountKey { username := "accbot", clientId := some "accCid" }) ≤
        MgrState.empty.connects.count
          (getAccountKey { username := "accbot", clientId := some "accCid" }) + 1 :=
  ⟨by decide, by decide,
   getClient_sequential_reuse MgrState.empty
     { username := "accbot", clientId := some "accCid" } c4CfgEx
     (some DEFAULT_ACCOUNT_ID) none (by decide) (by decide)⟩

/-- C7: `sendMessage` never throws and always returns a structured result:
on success `{ ok: true, messageId }` with the locally generated identifier,
on any failure `{ ok: false, error }` — including credential errors raised
while obtaining the connection, and thrown values that are not `Error`
objects, which are coerced to their string representation. -/
theorem sendMessage_structured (st : MgrState) (account : TwitchAccountConfig)
    (cfg : Option CoreCfg) (accountId : Option String)
    (envToken : Option String) (genId : String)
    (sayOutcome : Option ThrownValue) :
    ((sendMessage st account cfg accountId envToken genId sayOutcome).1.ok = true ∧
       (sendMessage st account cfg accountId envToken genId sayOutcome).1.messageId =
         some genId ∧
       (sendMessage st account cfg accountId envToken genId sayOutcome).1.error =
         none ∨
     (sendMessage st account cfg accountId envToken genId sayOutcome).1.ok = false ∧
       ((sendMessage st account cfg accountId envToken genId
         sayOutcome).1.error).isSome = true) ∧
    (∀ e, (getClient st account cfg accountId envToken).1 = Except.error e →
      (sendMessage st account cfg accountId envToken genId sayOutcome).1 =
        ⟨false, none, some e⟩) ∧
    (∀ s c, (getClient st account cfg accountId envToken).1 = Except.ok c →
      sayOutcome = some (ThrownValue.nonError s) →
      (sendMessage st account cfg accountId envToken genId sayOutcome).1 =
        ⟨false, none, some s⟩) := by
  rcases hg : getClient st account cfg accountId envToken with ⟨res, st2⟩
  cases res with
  | error e =>
    refine ⟨?_, ?_, ?_⟩
    · right
      simp [sendMessage, hg]
    · intro e' he
      simp at he
      subst he
      simp [sendMessage, hg]
    · intro s c hc
      simp at hc
  | ok c =>
    refine ⟨?_, ?_, ?_⟩
    · cases sayOutcome with
      | none => left; simp [sendMessage, hg]
      | some v => right; simp [sendMessage, hg]
    · intro e' he
      simp at he
    · intro s c' hc hsay
      subst hsay
      simp [sendMessage, hg, thrownToString]

/-- Witness for C7: a credential failure and a non-`Error` `say` throw both
come back as structured `{ ok: false, error }` results. -/
theorem sendMessage_structured_witness :
    (sendMessage MgrState.empty { username := "accbot" } none none none
        "id0" none).1 = ⟨false, none, some "Missing Twitch token"⟩ ∧
    (sendMessage MgrState.empty { username := "accbot", clientId := some "accCid" }
        c4CfgEx (some DEFAULT_ACCOUNT_ID) none "id1"
        (some (ThrownValue.nonError "boom"))).1 = ⟨false, none, some "boom"⟩ :=
  ⟨(sendMessage_structured MgrState.empty { username := "accbot" } none none
      none "id0" none).2.1 "Missing Twitch token" rfl,
   (sendMessage_structured MgrState.empty
      { username := "accbot", clientId := some "accCid" } c4CfgEx
      (some DEFAULT_ACCOUNT_ID) none "id1"
      (some (ThrownValue.nonError "boom"))).2.2 "boom" 0 rfl rfl⟩

/-- C10: `disconnect` removes only the connection and the inbound handler
stored under the account's connection key — every other key's entries in
both registries are untouched — and when no connection exists for the key
the state (both registries, and the quit log) is left entirely unchanged. -/
theorem disconnect_frame (st : MgrState) (account : TwitchAccountConfig) :
    (∀ k, k ≠ getAccountKey account →
      (disconnect st account).clients k = st.clients k ∧
      (disconnect st account).handlers k = st.handlers k) ∧
    (st.clients (getAccountKey account) = none → disconnect st account = st) ∧
    (∀ c, st.clients (getAccountKey account) = some c →
      (disconnect st account).clients (getAccountKey account) = none ∧
      (disconnect st account).handlers (getAccountKey account) = none ∧
      (disconnect st account).quits = st.quits ++ [getAccountKey account] ∧
      (disconnect st account).connects = st.connects ∧
      (disconnect st account).nextId = st.nextId) := by
  cases hcl : st.clients (getAccountKey account) with
  | some c =>
    refine ⟨?_, ?_, ?_⟩
    · intro k hk
      simp [disconnect, hcl, hk]
    · intro habs
      simp [hcl] at habs
    · intro c' _
      simp [disconnect, hcl]
  | none =>
    refine ⟨?_, ?_, ?_⟩
    · intro k hk
      simp [disconnect, hcl]
    · intro _
      simp [disconnect, hcl]
    · intro c' habs
      simp [hcl] at habs

/-- Witness for C10: disconnecting `alice`'s account removes exactly her
key's entries, and disconnecting an absent account is a no-op. -/
theorem disconnect_frame_witness :
    ((disconnect
        ⟨fun k => if k = "alice:chan" then some 0 else none,
         fun k => if k = "alice:chan" then some 7 else none, 1, ["alice:chan"], []⟩
        { username := "alice", channel := some "chan" }).clients "bob:chan" =
      (fun k => if k = "alice:chan" then some 0 else none) "bob:chan" ∧
     (disconnect
        ⟨fun k => if k = "alice:chan" then some 0 else none,
         fun k => if k = "alice:chan" then some 7 else none, 1, ["alice:chan"], []⟩
        { username := "alice", channel := some "chan" }).handlers "bob:chan" =
      (fun k => if k = "alice:chan" then some 7 else none) "bob:chan") ∧
    disconnect MgrState.empty { username := "alice", channel := some "chan" } =
      MgrState.empty ∧
    (disconnect
        ⟨fun k => if k = "alice:chan" then some 0 else none,
         fun k => if k = "alice:chan" then some 7 else none, 1, ["alice:chan"], []⟩
        { username := "alice", channel := some "chan" }).clients "alice:chan" =
      none :=
  ⟨(disconnect_frame
      ⟨fun k => if k = "alice:chan" then some 0 else none,
       fun k => if k = "alice:chan" then some 7 else none, 1, ["alice:chan"], []⟩
      { username := "alice", channel := some "chan" }).1 "bob:chan" (by decide),
   (disconnect_frame MgrState.empty
      { username := "alice", channel := some "chan" }).2.1 rfl,
   ((disconnect_frame
      ⟨fun k => if k = "alice:chan" then some 0 else none,
       fun k => if k = "alice:chan" then some 7 else none, 1, ["alice:chan"], []⟩
      { username := "alice", channel := some "chan" }).2.2 0 (by decide)).1⟩

/-! ## Access control (spec §4.4) and the monitor's inbound handler -/

/-- JavaScript `toLowerCase()` (modelled character-wise). -/
def toLowerStr (s : String) : String := ⟨s.data.map Char.toLower⟩

/-- An inbound chat message (`TwitchChatMessage` of types.ts), restricted to
the fields the access-control path reads. -/
structure TwitchChatMessage where
  username : String
  userId : Option String := none
  message : String := ""
  isMod : Bool := false
  isOwner : Bool := false
  isVip : Bool := false
  isSub : Bool := false
deriving DecidableEq

/-- `AccessDecision`: `{ allowed: boolean, reason?: string }`. -/
structure AccessDecision where
  allowed : Bool
  reason : Option String
deriving DecidableEq

/-- Whether one of the sender's true role flags matches a configured role
tag, or the open tag `"all"` is configured (spec §4.4 rule 3). -/
def senderRoleMatches (msg : TwitchChatMessage) (roles : List String) : Bool :=
  roles.contains "all" || (msg.isMod && roles.contains "moderator") ||
    (msg.isOwner && roles.contains "owner") ||
    (msg.isVip && roles.contains "vip") ||
    (msg.isSub && roles.contains "subscriber")

/-- Whether the sender's permanent user identifier is a member of the
allowlist (an absent `userId` is in no list). -/
def senderInAllowFrom (msg : TwitchChatMessage) (allowFrom : List String) : Bool :=
  match msg.userId with
  | some u => allowFrom.contains u
  | none => false

/-- Whether the message contains a mention token for the bot's identity. -/
def mentionsBot (msg : TwitchChatMessage) (botUsername : String) : Bool :=
  decide (("@" ++ botUsername).data <:+: (toLowerStr msg.message).data)

/-- Modelled from the spec: `access-control.ts` (`checkTwitchAccessControl`)
is not part of the repository snapshot (only its callers in monitor.ts and
plugin.ts are).  Spec §4.4, rules in order: (1) self-message → reject;
(2) non-empty `allowFrom` containing the sender's permanent user id →
accept, bypassing role checks and the mention requirement; (3) else
non-empty `allowedRoles` → accept iff `"all"` or a tag matching a true role
flag is present, otherwise reject; (4) else, when neither is configured,
accept unless `requireMention` is set and no mention token is present.  A
configured `allowFrom` that did not admit the sender (including the
present-but-empty case, §4.6 "removes everyone's recourse") rejects. -/
def checkTwitchAccessControl (msg : TwitchChatMessage)
    (account : TwitchAccountConfig) (botUsername : String) : AccessDecision :=
  if toLowerStr msg.username = botUsername then ⟨false, some "self message"⟩
  else if account.allowFrom.getD [] ≠ [] ∧
      senderInAllowFrom msg (account.allowFrom.getD []) then ⟨true, none⟩
  else if account.allowedRoles.getD [] ≠ [] then
    if senderRoleMatches msg (account.allowedRoles.getD []) then ⟨true, none⟩
    else ⟨false, some "missing required role"⟩
  else if account.allowFrom.isSome then ⟨false, some "not in allowFrom"⟩
  else if boolTruthy account.requireMention ∧ ¬ mentionsBot msg botUsername then
    ⟨false, some "mention required"⟩
  else ⟨true, none⟩

/-- What the monitor's inbound handler does with one message. -/
inductive MonitorOutcome where
  | stoppedDrop
  | selfDropped
  | denied (reason : Option String)
  | processed
deriving DecidableEq

/-- The message handler registered by `monitorTwitchProvider` (monitor.ts
lines 220-257): ignore everything once stopped; drop the bot's own messages
(case-insensitive compare against `account.username`) before any policy
check; then apply access control and either drop with the denial reason or
process the message (route and dispatch a reply). -/
def monitorHandleMessage (stopped : Bool) (account : TwitchAccountConfig)
    (msg : TwitchChatMessage) : MonitorOutcome :=
  if stopped then .stoppedDrop
  else
    if toLowerStr msg.username = toLowerStr account.username then .selfDropped
    else
      let access := checkTwitchAccessControl msg account (toLowerStr account.username)
      if access.allowed then .processed else .denied access.reason

/-- C6: a message whose sender identity equals the bot's own identity
(case-insensitively) is always dropped before any policy check — it is
never processed and never reaches an access-control denial, whatever the
account policy (in particular even when the sender is in `allowFrom`). -/
theorem monitor_self_message_suppressed (stopped : Bool)
    (account : TwitchAccountConfig) (msg : TwitchChatMessage)
    (h : toLowerStr msg.username = toLowerStr account.username) :
    (stopped = false →
      monitorHandleMessage stopped account msg = MonitorOutcome.selfDropped) ∧
    monitorHandleMessage stopped account msg ≠ MonitorOutcome.processed ∧
    (∀ r, monitorHandleMessage stopped account msg ≠ MonitorOutcome.denied r) := by
  cases stopped with
  | true =>
    refine ⟨?_, ?_, ?_⟩
    · intro habs; cases habs
    · simp [monitorHandleMessage]
    · intro r; simp [monitorHandleMessage]
  | false =>
    refine ⟨?_, ?_, ?_⟩
    · intro _; simp [monitorHandleMessage, h]
    · simp [monitorHandleMessage, h]
    · intro r; simp [monitorHandleMessage, h]

/-- Witness for C6: the bot's own message (different case, sender id inside
`allowFrom`) is self-dropped. -/
theorem monitor_self_message_suppressed_witness :
    toLowerStr "MyBot" = toLowerStr "mybot" ∧
    monitorHandleMessage false
        { username := "mybot", allowFrom := some ["123"] }
        { username := "MyBot", userId := some "123" } =
      MonitorOutcome.selfDropped :=
  ⟨by decide,
   (monitor_self_message_suppressed false
     { username := "mybot", allowFrom := some ["123"] }
     { username := "MyBot", userId := some "123" } (by decide)).1 rfl⟩

/-- C5: with a non-empty `allowFrom`, a sender whose permanent user id is in
the list is accepted immediately — whatever the role flags, `allowedRoles`
and `requireMention` — while a sender not in the list whose role flags match
none of the configured `allowedRoles` is denied. -/
theorem accessControl_allowFrom_bypass (msg : TwitchChatMessage)
    (account : TwitchAccountConfig) (botUsername : String)
    (hself : toLowerStr msg.username ≠ botUsername)
    (hne : account.allowFrom.getD [] ≠ []) :
    (senderInAllowFrom msg (account.allowFrom.getD []) = true →
      checkTwitchAccessControl msg account botUsername = ⟨true, none⟩) ∧
    (senderInAllowFrom msg (account.allowFrom.getD []) = false →
      senderRoleMatches msg (account.allowedRoles.getD []) = false →
      (checkTwitchAccessControl msg account botUsername).allowed = false) := by
  constructor
  · intro hmem
    rw [checkTwitchAccessControl, if_neg hself, if_pos ⟨hne, hmem⟩]
  · intro hnot hrole
    rw [checkTwitchAccessControl, if_neg hself, if_neg]
    · by_cases hr : account.allowedRoles.getD [] ≠ []
      · rw [if_pos hr, if_neg]
        simp [hrole]
      · rw [if_neg hr, if_pos]
        cases haf : account.allowFrom with
        | none => rw [haf] at hne; simp at hne
        | some l => simp [haf]
    · rintro ⟨_, hmem⟩
      rw [hnot] at hmem
      cases hmem

/-- Witness for C5 at the spec's access-control matrix:
`allowFrom = ["123"]`, `allowedRoles = ["moderator"]`; sender `"123"` (not a
moderator) is allowed, sender `"456"` (not a moderator) is denied. -/
theorem accessControl_allowFrom_bypass_witness :
    checkTwitchAccessControl { username := "alice", userId := some "123" }
        { username := "mybot", allowFrom := some ["123"],
          allowedRoles := some ["moderator"], requireMention := some true }
        "mybot" = ⟨true, none⟩ ∧
    (checkTwitchAccessControl { username := "bob", userId := some "456" }
        { username := "mybot", allowFrom := some ["123"],
          allowedRoles := some ["moderator"], requireMention := some true }
        "mybot").allowed = false :=
  ⟨(accessControl_allowFrom_bypass { username := "alice", userId := some "123" }
      { username := "mybot", allowFrom := some ["123"],
        allowedRoles := some ["moderator"], requireMention := some true }
      "mybot" (by decide) (by decide)).1 (by decide),
   (accessControl_allowFrom_bypass { username := "bob", userId := some "456" }
      { username := "mybot", allowFrom := some ["123"],
        allowedRoles := some ["moderator"], requireMention := some true }
      "mybot" (by decide) (by decide)).2 (by decide) (by decide)⟩

/-! ## Status/issue collector (`collectTwitchStatusIssues`, status.ts) -/

/-- Issue kinds of `ChannelStatusIssue` (types.ts). -/
inductive IssueKind where
  | intent
  | permissions
  | config
  | auth
  | runtime
deriving DecidableEq

/-- `ChannelStatusIssue`: `{ channel, accountId, kind, message, fix }`. -/
structure ChannelStatusIssue where
  channel : String
  accountId : String
  kind : IssueKind
  message : String
  fix : Option String
deriving DecidableEq

/-- `ChannelAccountSnapshot` (types.ts), restricted to the fields the
collector reads. -/
structure ChannelAccountSnapshot where
  accountId : String
  enabled : Option Bool := none
  configured : Option Bool := none
  running : Option Bool := none
  lastStartAt : Option Int := none
  lastStopAt : Option Int := none
  lastError : Option String := none
  lastInboundAt : Option Int := none
  lastOutboundAt : Option Int := none
deriving DecidableEq

/-- `isAccountConfigured` (utils/twitch.ts is absent from the snapshot; this
is the identical `isConfigured` of plugin.ts lines 36-40:
`Boolean(account?.token && account?.username && account?.clientId)`). -/
def isAccountConfigured (account : RawAccountCfg) : Bool :=
  strTruthy account.token && strTruthy account.username && strTruthy account.clientId

/-- Check 1 of status.ts: account not configured. -/
def notConfiguredIssue (accountId : String) : ChannelStatusIssue :=
  ⟨"twitch", accountId, IssueKind.config,
   "Twitch account is not properly configured",
   some "Add required fields: username, token, and clientId to your account configuration"⟩

/-- Check 2: account disabled. -/
def disabledIssue (accountId : String) : ChannelStatusIssue :=
  ⟨"twitch", accountId, IssueKind.config, "Twitch account is disabled",
   some "Set enabled: true in your account configuration to enable this account"⟩

/-- Check 3: missing client id. -/
def missingClientIdIssue (accountId : String) : ChannelStatusIssue :=
  ⟨"twitch", accountId, IssueKind.config, "Twitch client ID is required",
   some "Add clientId to your Twitch account configuration (from Twitch Developer Portal)"⟩

/-- Check 4: token still carries the removable prefix. -/
def oauthTokenFormatIssue (accountId : String) : ChannelStatusIssue :=
  ⟨"twitch", accountId, IssueKind.config,
   "Token contains 'oauth:' prefix (will be stripped)",
   some "The 'oauth:' prefix is optional. You can use just the token value, or keep it as-is (it will be normalized automatically)."⟩

/-- Check 5: `clientSecret` without `refreshToken`. -/
def secretWithoutRefreshIssue (accountId : String) : ChannelStatusIssue :=
  ⟨"twitch", accountId, IssueKind.config,
   "clientSecret provided without refreshToken",
   some "For automatic token refresh, provide both clientSecret and refreshToken. Otherwise, clientSecret is not needed."⟩

/-- Check 6: `allowFrom` configured but empty. -/
def emptyAllowFromIssue (accountId : String) : ChannelStatusIssue :=
  ⟨"twitch", accountId, IssueKind.config, "allowFrom is configured but empty",
   some "Either add user IDs to allowFrom, remove the allowFrom field, or use allowedRoles instead."⟩

/-- Check 7: open role tag together with an allowlist. -/
def allRolesWithAllowFromIssue (accountId : String) : ChannelStatusIssue :=
  ⟨"twitch", accountId, IssueKind.intent,
   "allowedRoles is set to 'all' but allowFrom is also configured",
   some "When allowedRoles is 'all', the allowFrom list is not needed. Remove allowFrom or set allowedRoles to specific roles."⟩

/-- Check 8: a recorded last error. -/
def lastErrorIssue (accountId : String) (e : String) : ChannelStatusIssue :=
  ⟨"twitch", accountId, IssueKind.runtime, "Last error: " ++ e,
   some "Check your token validity and network connection. Ensure the bot has the required OAuth scopes."⟩

/-- Check 9: account never connected successfully. -/
def neverConnectedIssue (accountId : String) : ChannelStatusIssue :=
  ⟨"twitch", accountId, IssueKind.runtime,
   "Account has never connected successfully",
   some "Start the Twitch gateway to begin receiving messages. Check logs for connection errors."⟩

/-- Check 10: long-running connection. -/
def longRunningIssue (accountId : String) (days : Int) : ChannelStatusIssue :=
  ⟨"twitch", accountId, IssueKind.runtime,
   "Connection has been running for " ++ toString days ++ " days",
   some "Consider restarting the connection periodically to refresh the connection. Twitch tokens may expire after long periods."⟩

/-- The body of `collectTwitchStatusIssues`'s per-snapshot loop (status.ts
lines 99-247).  `getCfg` is the optional config accessor (`none` when not
passed; `some cfgOpt` when passed and returning `cfgOpt` — a throwing
accessor behaves like `some none` since errors are swallowed and leave
`account` null).  `now` stands for `Date.now()`. -/
def issuesForEntry (getCfg : Option (Option CoreCfg)) (now : Int)
    (entry : ChannelAccountSnapshot) : List ChannelStatusIssue :=
  if entry.accountId = "" then []
  else
    let account : Option RawAccountCfg :=
      match getCfg with
      | none => none
      | some c => getAccountConfig c entry.accountId
    if boolTruthy entry.configured = false then [notConfiguredIssue entry.accountId]
    else if entry.enabled = some false then [disabledIssue entry.accountId]
    else
      (match account with
       | some a =>
         if isAccountConfigured a then
           (if strTruthy a.clientId = false then
              [missingClientIdIssue entry.accountId] else []) ++
           (if (match a.token with
                | some t => oauthMarker.isPrefixOf t.data
                | none => false) then
              [oauthTokenFormatIssue entry.accountId] else []) ++
           (if strTruthy a.clientSecret ∧ strTruthy a.refreshToken = false then
              [secretWithoutRefreshIssue entry.accountId] else []) ++
           (if a.allowFrom = some [] then
              [emptyAllowFromIssue entry.accountId] else []) ++
           (if ((match a.allowedRoles with
                 | some r => r.contains "all"
                 | none => false) &&
                (match a.allowFrom with
                 | some f => decide (0 < f.length)
                 | none => false)) = true then
              [allRolesWithAllowFromIssue entry.accountId] else [])
         else []
       | none => []) ++
      (if strTruthy entry.lastError then
         [lastErrorIssue entry.accountId (entry.lastError.getD "")] else []) ++
      (if boolTruthy entry.configured ∧ boolTruthy entry.running = false ∧
          numTruthy entry.lastStartAt = false ∧
          numTruthy entry.lastInboundAt = false ∧
          numTruthy entry.lastOutboundAt = false then
         [neverConnectedIssue entry.accountId] else []) ++
      (if boolTruthy entry.running ∧ numTruthy entry.lastStartAt then
         (if 7 * 86400000 < now - entry.lastStartAt.getD 0 then
            [longRunningIssue entry.accountId
              ((now - entry.lastStartAt.getD 0) / 86400000)]
          else [])
       else [])

/-- `collectTwitchStatusIssues` (status.ts lines 93-250): the loop over the
snapshot array, accumulating each snapshot's issues in order. -/
def collectTwitchStatusIssues (accounts : List ChannelAccountSnapshot)
    (getCfg : Option (Option CoreCfg)) (now : Int) : List ChannelStatusIssue :=
  match accounts with
  | [] => []
  | e :: rest => issuesForEntry getCfg now e ++ collectTwitchStatusIssues rest getCfg now

theorem collectTwitchStatusIssues_append (l1 l2 : List ChannelAccountSnapshot)
    (getCfg : Option (Option CoreCfg)) (now : Int) :
    collectTwitchStatusIssues (l1 ++ l2) getCfg now =
      collectTwitchStatusIssues l1 getCfg now ++
      collectTwitchStatusIssues l2 getCfg now := by
  induction l1 with
  | nil => simp [collectTwitchStatusIssues]
  | cons e rest ih =>
    simp [collectTwitchStatusIssues, ih]

/-- C8: inside any snapshot array, a snapshot (with a non-empty account id)
whose `configured` is `false` contributes exactly one issue — the
`config`-kind "not properly configured" issue — and no further checks run
for that account. -/
theorem statusCollector_unconfigured_single_issue
    (getCfg : Option (Option CoreCfg)) (now : Int)
    (pre post : List ChannelAccountSnapshot) (entry : ChannelAccountSnapshot)
    (hid : entry.accountId ≠ "") (hconf : entry.configured = some false) :
    collectTwitchStatusIssues (pre ++ entry :: post) getCfg now =
      collectTwitchStatusIssues pre getCfg now ++
        notConfiguredIssue entry.accountId ::
          collectTwitchStatusIssues post getCfg now ∧
    (notConfiguredIssue entry.accountId).kind = IssueKind.config := by
  constructor
  · rw [collectTwitchStatusIssues_append]
    have hentry : issuesForEntry getCfg now entry =
        [notConfiguredIssue entry.accountId] := by
      rw [issuesForEntry.eq_def, if_neg hid]
      rw [hconf]
      simp [boolTruthy]
    simp [collectTwitchStatusIssues, hentry]
  · rfl

/-- Witness for C8 at a concrete snapshot array. -/
theorem statusCollector_unconfigured_single_issue_witness :
    collectTwitchStatusIssues
        [⟨"other", some true, some true, some false, none, none, none, none, none⟩,
         ⟨"default", some true, some false, some false, none, none, none, none, none⟩]
        none 0 =
      collectTwitchStatusIssues
        [⟨"other", some true, some true, some false, none, none, none, none, none⟩]
        none 0 ++
        notConfiguredIssue "default" :: collectTwitchStatusIssues [] none 0 ∧
    (notConfiguredIssue "default").kind = IssueKind.config :=
  statusCollector_unconfigured_single_issue none 0
    [⟨"other", some true, some true, some false, none, none, none, none, none⟩] []
    ⟨"default", some true, some false, some false, none, none, none, none, none⟩
    (by decide) rfl

/-- C9 counterexample: a snapshot with a recorded last error but
`configured: false` yields no `runtime`-kind issue at all — the collector
stops after the `config` issue, so a recorded last error does NOT always
produce a runtime issue. -/
theorem statusCollector_lastError_skipped_when_unconfigured :
    (⟨"default", some true, some false, some false, none, none, some "boom",
        none, none⟩ : ChannelAccountSnapshot).lastError = some "boom" ∧
    (collectTwitchStatusIssues
        [⟨"default", some true, some false, some false, none, none, some "boom",
          none, none⟩] none 0).all
      (fun i => !(i.kind == IssueKind.runtime)) = true := by
  constructor
  · rfl
  · decide

/-- C9 (amended): a recorded last error produces a `runtime`-kind issue
whenever the snapshot passes the collector's gates (non-empty account id,
`configured` truthy, `enabled` not strictly `false`); it is independent of
the config-content checks (any `getCfg`), but unconfigured or disabled
snapshots skip the runtime checks. -/
theorem statusCollector_lastError_runtime_issue
    (getCfg : Option (Option CoreCfg)) (now : Int)
    (pre post : List ChannelAccountSnapshot) (entry : ChannelAccountSnapshot)
    (e : String) (hid : entry.accountId ≠ "") (hconf : entry.configured = some true)
    (hen : entry.enabled ≠ some false) (herr : entry.lastError = some e)
    (hne : e ≠ "") :
    lastErrorIssue entry.accountId e ∈
      collectTwitchStatusIssues (pre ++ entry :: post) getCfg now ∧
    (lastErrorIssue entry.accountId e).kind = IssueKind.runtime := by
  constructor
  · rw [collectTwitchStatusIssues_append]
    refine List.mem_append_right _ ?_
    have hmem : lastErrorIssue entry.accountId e ∈ issuesForEntry getCfg now entry := by
      rw [issuesForEntry.eq_def, if_neg hid]
      rw [hconf]
      simp only [boolTruthy]
      rw [if_neg (by simp)]
      rw [if_neg hen]
      refine List.mem_append_left _ ?_
      refine List.mem_append_left _ ?_
      refine List.mem_append_right _ ?_
      rw [herr]
      simp [strTruthy, hne]
    simp [collectTwitchStatusIssues]
    exact Or.inl hmem
  · rfl

/-- Witness for C9 (amended) at a concrete snapshot. -/
theorem statusCollector_lastError_runtime_issue_witness :
    lastErrorIssue "default" "boom" ∈
      collectTwitchStatusIssues
        ([] ++ (⟨"default", some true, some true, some false, none, none,
          some "boom", none, none⟩ : ChannelAccountSnapshot) :: []) none 0 ∧
    (lastErrorIssue "default" "boom").kind = IssueKind.runtime :=
  statusCollector_lastError_runtime_issue none 0 [] []
    ⟨"default", some true, some true, some false, none, none, some "boom",
      none, none⟩ "boom" (by decide) rfl (by decide) rfl (by decide)
